import Mathlib

/-!
Verification of the axios-logger normalization pipeline (`src/es/index.js`).

A shallow embedding of the request/response logging middleware.  JavaScript
objects that are used as string-keyed maps (header maps) are modelled as
association lists `List (String × String)`; property lookup returns
`Option String` (`none` models the property being absent / `undefined`).
`undefined`-able variables are `Option` values.  ISO-8601 timestamp strings
are kept as `String` where the code copies them opaquely; where the code
converts them with `new Date(s).getTime()` we implement the conversion to
epoch milliseconds (`dateGetTime`).  Epoch-millisecond instants are `Int`.

External library functions used by the source (`lodash.pick`, `lodash.omit`,
Node's legacy `url.parse`, `Date`, and `formatRequest`/`formatResponse` from
`@softonic/http-log-format`) are modelled from their documented behaviour,
as noted on each definition.
-/

set_option autoImplicit false

/-- A JavaScript object used as a string-keyed map (e.g. a header map),
modelled as an association list.  JS objects have pairwise-distinct keys;
all maps built by the embedded code preserve that invariant. -/
abbrev HeaderMap := List (String × String)

/-- Property lookup `o[k]` on a JS object: the value at the first matching
key, or `none` for `undefined`. -/
def jsGet (o : HeaderMap) (k : String) : Option String :=
  match o with
  | [] => none
  | (k', v) :: t => if k' = k then some v else jsGet t k

/-- `Object.keys`: the key list of a JS object, in insertion order. -/
def objKeys (o : HeaderMap) : List String :=
  o.map Prod.fst

/-- Modelled from the documented behaviour of `lodash.pick(o, ks)`: the
object composed of the properties of `o` named in `ks`, in the order of
`ks`, skipping names that `o` lacks.  (The call sites pass duplicate-free
name lists, under which this list model coincides with lodash.) -/
def jsPick (o : HeaderMap) : List String → HeaderMap
  | [] => []
  | k :: ks =>
    match jsGet o k with
    | some v => (k, v) :: jsPick o ks
    | none => jsPick o ks

/-- Modelled from the documented behaviour of `lodash.omit(o, ks)`: a copy
of `o` without the properties named in `ks` (with `ks = []` standing for
lodash's treatment of an `undefined` path list, which omits nothing). -/
def jsOmit (o : HeaderMap) (ks : List String) : HeaderMap :=
  o.filter (fun p => !(ks.contains p.1))

/-- `Object.assign(base, extra)` restricted to two plain string-valued
objects: keys of `base` keep their position but take the value from
`extra` when `extra` also has the key; keys only in `extra` are appended
in order. -/
def objAssign (base extra : HeaderMap) : HeaderMap :=
  base.map (fun p => (p.1, (jsGet extra p.1).getD p.2)) ++
    extra.filter (fun p => !((objKeys base).contains p.1))

/-- `filterHeaders({ headers, whitelistHeaders, blacklistHeaders })` from
`src/es/index.js` (the options object is destructured into the three
parameters).  `whitelistHeaders ? jsPick(headers, whitelistHeaders) : headers`
— note that in JS an *empty array is truthy*, so `some []` still selects the
`pick` branch — followed by `omit(whitelistedHeaders, blacklistHeaders)`,
where an absent blacklist omits nothing. -/
def filterHeaders (headers : HeaderMap)
    (whitelistHeaders blacklistHeaders : Option (List String)) : HeaderMap :=
  let whitelistedHeaders :=
    match whitelistHeaders with
    | some w => jsPick headers w
    | none => headers
  jsOmit whitelistedHeaders (blacklistHeaders.getD [])

/-- The `host`/`path` components of Node's legacy `url.parse` result that
the source reads. -/
structure ParsedUrl where
  host : String
  path : String
deriving DecidableEq, Repr

/-- Scans for the first `://` separator and yields the characters after it,
or `none` when the string has no scheme separator. -/
def afterSchemeSep : List Char → Option (List Char)
  | ':' :: '/' :: '/' :: rest => some rest
  | _ :: rest => afterSchemeSep rest
  | [] => none

/-- Modelled from the documented behaviour of Node's legacy `url.parse` for
the absolute `scheme://host[/path...]` URLs the logger is used with: `host`
is everything between `://` and the first following `/`, `path` is the rest
(query string included), `/` when the URL has no path component.  A string
without `://` is treated as host-less, the whole string being the path;
no claim exercises that case. -/
def urlParse (s : String) : ParsedUrl :=
  match afterSchemeSep s.toList with
  | some rest =>
    { host := String.mk (rest.takeWhile (fun c => c ≠ '/'))
      path :=
        match rest.dropWhile (fun c => c ≠ '/') with
        | [] => "/"
        | ps => String.mk ps }
  | none => { host := "", path := s }

/-- `String.prototype.toUpperCase` for the ASCII method names the logger
sees (char-by-char upper-casing). -/
def jsToUpperCase (s : String) : String :=
  String.mk (s.toList.map Char.toUpper)

/-- An axios request configuration, with the fields `src/es/index.js`
reads: `url`, `method`, `headers` and the issuance `timestamp` stamped by
the request interceptor before dispatch (an ISO-8601 string). -/
structure Config where
  url : String
  method : String
  headers : HeaderMap
  timestamp : String
deriving DecidableEq, Repr

/-- `createClientRequestFromConfig` builds the loggable request used on
error paths that only carry a config. -/
structure LoggableRequest where
  timestamp : String
  method : String
  url : String
  headers : HeaderMap
deriving DecidableEq, Repr

/-- `createClientRequestFromConfig(config)` from `src/es/index.js`:
parse `config.url`, uppercase the method, keep only the path in `url`, and
`Object.assign({ host: parsedUrl.host }, headers)` for the headers — so a
caller-supplied `host` header overwrites the URL-derived one, as later
`Object.assign` sources take precedence. -/
def createClientRequestFromConfig (config : Config) : LoggableRequest :=
  let parsedUrl := urlParse config.url
  { timestamp := config.timestamp
    method := jsToUpperCase config.method
    url := parsedUrl.path
    headers := objAssign [("host", parsedUrl.host)] config.headers }

/-- The decimal value of a digit string, most significant first (all inputs
are digit runs cut from an ISO-8601 timestamp). -/
def digitsToNat (cs : List Char) : Nat :=
  cs.foldl (fun n c => n * 10 + (c.toNat - 48)) 0

/-- Days from 1970-01-01 to year `y`, month `m` (1–12), day `d` in the
proleptic Gregorian calendar (civil-from-days inverse, for `y ≥ 1`). -/
def daysFromCivil (y m d : Nat) : Int :=
  let y' := y - (if m ≤ 2 then 1 else 0)
  let era := y' / 400
  let yoe := y' - era * 400
  let mp := if m > 2 then m - 3 else m + 9
  let doy := (153 * mp + 2) / 5 + (d - 1)
  let doe := yoe * 365 + yoe / 4 - yoe / 100 + doy
  (era * 146097 + doe : Int) - 719468

/-- `new Date(s).getTime()` for the fixed-width UTC ISO-8601 strings
`YYYY-MM-DDThh:mm:ss.mmmZ` produced by `Date.prototype.toISOString` (the
only strings the logger stamps): the epoch-millisecond value. -/
def dateGetTime (s : String) : Int :=
  let cs := s.toList
  let year := digitsToNat (cs.take 4)
  let month := digitsToNat ((cs.drop 5).take 2)
  let day := digitsToNat ((cs.drop 8).take 2)
  let hour := digitsToNat ((cs.drop 11).take 2)
  let minute := digitsToNat ((cs.drop 14).take 2)
  let second := digitsToNat ((cs.drop 17).take 2)
  let millis := digitsToNat ((cs.drop 20).take 3)
  daysFromCivil year month day * 86400000 +
    (hour * 3600000 + minute * 60000 + second * 1000 + millis : Nat)

/-- The native `http.ClientRequest` captured by axios on a completed
exchange, with the fields the pipeline reads: method, path and headers. -/
structure NativeRequest where
  method : String
  path : String
  headers : HeaderMap
deriving DecidableEq, Repr

/-- `Object.assign({ timestamp }, axiosResponse.request)`: the native
request together with the stamped issuance timestamp. -/
structure TimestampedNativeRequest where
  timestamp : String
  method : String
  path : String
  headers : HeaderMap
deriving DecidableEq, Repr

/-- An axios response (the completed exchange): the originating config, the
captured native request, the status code and the response headers. -/
structure AxiosResponse where
  config : Config
  request : NativeRequest
  status : Int
  headers : HeaderMap
deriving DecidableEq, Repr

/-- The error value handed to the rejection interceptor: it may carry an
upstream `response`, the original `config`, or neither; `message` stands
for the rest of the JS error object and distinguishes error identities. -/
structure JsError where
  response : Option AxiosResponse
  config : Option Config
  message : String
deriving DecidableEq, Repr

/-- Modelled from the spec: `formatRequest` of the external
`@softonic/http-log-format` package, which turns the timestamped native
request into the loggable `{timestamp, method, url, headers}` shape (§4.2:
"Extract the native request representation already captured by the
underlying client (method, url/path, headers)"). -/
def formatRequest (r : TimestampedNativeRequest) : LoggableRequest :=
  { timestamp := r.timestamp
    method := r.method
    url := r.path
    headers := r.headers }

/-- The loggable response shape `{timestamp, statusCode, headers,
responseTime}`.  `timestamp` is the completion instant (the code stores
`now.toISOString()`; it is modelled by its epoch-millisecond value), and
`responseTime` the elapsed milliseconds. -/
structure LoggableResponse where
  timestamp : Int
  statusCode : Int
  headers : HeaderMap
  responseTime : Int
deriving DecidableEq, Repr

/-- Modelled from the spec: `formatResponse` of the external
`@softonic/http-log-format` package; per §3 it yields the
`{timestamp, statusCode, headers, responseTime}` shape, preserving the
fields the caller computed. -/
def formatResponse (r : LoggableResponse) : LoggableResponse :=
  { timestamp := r.timestamp
    statusCode := r.statusCode
    headers := r.headers
    responseTime := r.responseTime }

/-- The body of `getLoggableRequestFromAxiosResponse` once the
`axiosResponse` property is present: stamp the native request with the
config's issuance timestamp, format it, and filter its headers with the
request-direction policy. -/
def loggableRequestOf (axiosResponse : AxiosResponse)
    (whitelistRequestHeaders blacklistRequestHeaders : Option (List String)) :
    LoggableRequest :=
  let timestamp := axiosResponse.config.timestamp
  let nativeRequest : TimestampedNativeRequest :=
    { timestamp := timestamp
      method := axiosResponse.request.method
      path := axiosResponse.request.path
      headers := axiosResponse.request.headers }
  let loggableRequest := formatRequest nativeRequest
  { loggableRequest with
      headers := filterHeaders loggableRequest.headers
        whitelistRequestHeaders blacklistRequestHeaders }

/-- The body of `getLoggableResponseFromAxiosResponse` once the
`axiosResponse` property is present.  `now` is the epoch-millisecond value
of the `new Date()` captured at normalization time; `responseTime` is
`now - new Date(requestTimestamp).getTime()`. -/
def loggableResponseOf (now : Int) (axiosResponse : AxiosResponse)
    (whitelistResponseHeaders blacklistResponseHeaders : Option (List String)) :
    LoggableResponse :=
  let requestTimestamp := axiosResponse.config.timestamp
  let pseudoNativeResponse : LoggableResponse :=
    { timestamp := now
      statusCode := axiosResponse.status
      headers := axiosResponse.headers
      responseTime := now - dateGetTime requestTimestamp }
  let loggableResponse := formatResponse pseudoNativeResponse
  { loggableResponse with
      headers := filterHeaders loggableResponse.headers
        whitelistResponseHeaders blacklistResponseHeaders }

/-- The options object of `getLoggableRequestFromAxiosResponse`; each
field is `Option` because the function destructures whatever object it is
called with, and a property the argument lacks is `undefined`. -/
structure ReqOpts where
  axiosResponse : Option AxiosResponse
  whitelistRequestHeaders : Option (List String)
  blacklistRequestHeaders : Option (List String)
deriving DecidableEq, Repr

/-- The options object of `getLoggableResponseFromAxiosResponse`. -/
structure RespOpts where
  axiosResponse : Option AxiosResponse
  whitelistResponseHeaders : Option (List String)
  blacklistResponseHeaders : Option (List String)
deriving DecidableEq, Repr

/-- `getLoggableRequestFromAxiosResponse(options)` from `src/es/index.js`.
Its first statement reads `axiosResponse.config`; when the destructured
`axiosResponse` property is `undefined` — as happens when a raw axios
response is passed as the options object — that read throws a `TypeError`,
modelled by `Except.error ()`. -/
def getLoggableRequestFromAxiosResponse (options : ReqOpts) :
    Except Unit LoggableRequest :=
  match options.axiosResponse with
  | none => .error ()
  | some ar =>
    .ok (loggableRequestOf ar
      options.whitelistRequestHeaders options.blacklistRequestHeaders)

/-- `getLoggableResponseFromAxiosResponse(options)` from `src/es/index.js`,
with the same `TypeError` behaviour when the `axiosResponse` property is
absent from the options object. -/
def getLoggableResponseFromAxiosResponse (now : Int) (options : RespOpts) :
    Except Unit LoggableResponse :=
  match options.axiosResponse with
  | none => .error ()
  | some ar =>
    .ok (loggableResponseOf now ar
      options.whitelistResponseHeaders options.blacklistResponseHeaders)

/-- JS destructuring of `{ axiosResponse, whitelistRequestHeaders,
blacklistRequestHeaders }` from a raw axios response (the argument the
error interceptor actually passes): an axios response object has none of
those three properties, so every field is `undefined`. -/
def reqOptsOfRawResponse (_r : AxiosResponse) : ReqOpts :=
  { axiosResponse := none
    whitelistRequestHeaders := none
    blacklistRequestHeaders := none }

/-- JS destructuring of `{ axiosResponse, whitelistResponseHeaders,
blacklistResponseHeaders }` from a raw axios response: every field is
`undefined`. -/
def respOptsOfRawResponse (_r : AxiosResponse) : RespOpts :=
  { axiosResponse := none
    whitelistResponseHeaders := none
    blacklistResponseHeaders := none }


/-- A request object as `makeRequestLine` sees it: any of the properties it
probes may be absent.  `uheaders` models the underscore-prefixed
`_headers` property of native client requests. -/
structure ReqLike where
  method : String
  headers : Option HeaderMap
  uheaders : Option HeaderMap
  url : Option String
  path : Option String
deriving DecidableEq, Repr

/-- The JS `||` fallback on possibly-`undefined` string values: keeps the
left value when it is truthy (present and nonempty), otherwise yields the
right one. -/
def jsOrVal (a b : Option String) : Option String :=
  match a with
  | some s => if s = "" then b else some s
  | none => b

/-- Template-literal interpolation of a possibly-`undefined` string:
`undefined` prints as the text `undefined`. -/
def jsStr (v : Option String) : String :=
  v.getD "undefined"

/-- `makeRequestLine(request)` from `src/es/index.js`:
`` `${request.method} ${host}${url}` `` where the header map is
`request.headers || request._headers || {}` (object values are falsy only
when absent), `host` is `headers.host || ''` (which is `''` exactly when
the entry is absent or empty), and `url` is `request.url || request.path`
under JS truthiness. -/
def makeRequestLine (request : ReqLike) : String :=
  let headers :=
    match request.headers with
    | some h => h
    | none =>
      match request.uheaders with
      | some h => h
      | none => []
  let host := (jsGet headers "host").getD ""
  let url := jsOrVal request.url request.path
  request.method ++ " " ++ host ++ jsStr url

/-- The view of a loggable request that the interceptors hand to
`makeRequestLine`: `headers` and `url` present, no `_headers`, no
`path`. -/
def reqLikeOfLoggableRequest (q : LoggableRequest) : ReqLike :=
  { method := q.method
    headers := some q.headers
    uheaders := none
    url := some q.url
    path := none }

/-- The structured payload handed to the sink: the `request`, `response`
and `error` keys of the object literal, each possibly absent. -/
structure Payload where
  request : Option LoggableRequest
  response : Option LoggableResponse
  error : Option JsError
deriving DecidableEq, Repr

/-- One call on the logging sink: `logger.info(payload, message)` or
`logger.error(payload, message)`. -/
inductive LogCall where
  | info (payload : Payload) (message : String)
  | error (payload : Payload) (message : String)
deriving DecidableEq, Repr

/-- What the caller of the rejection interceptor observes: the returned
`Promise.reject(error)` carrying the error value, or an exception thrown
out of the handler (which the promise machinery turns into a rejection
with the thrown `TypeError` instead of the original error). -/
inductive Outcome where
  | rejected (e : JsError)
  | thrown
deriving DecidableEq, Repr

/-- The four header-policy options accepted by the `axiosBunyan` setup
function, each optional. -/
structure LoggerOptions where
  whitelistRequestHeaders : Option (List String)
  blacklistRequestHeaders : Option (List String)
  whitelistResponseHeaders : Option (List String)
  blacklistResponseHeaders : Option (List String)
deriving DecidableEq, Repr

/-- The request interceptor `logRequest`: stamps the issuance timestamp on
the config and returns it. `nowIso` is the `new Date().toISOString()`
value at dispatch time. -/
def logRequest (nowIso : String) (config : Config) : Config :=
  { config with timestamp := nowIso }

/-- The success interceptor `logResponse` from `src/es/index.js`: emitted
sink calls paired with the returned value.  Here the normalizers are
invoked with a well-formed options object
`{ axiosResponse, whitelist..., blacklist... }`, so the `axiosResponse`
lookups succeed and the bodies `loggableRequestOf`/`loggableResponseOf`
run; the interceptor returns the received `axiosResponse` itself. -/
def logResponse (opts : LoggerOptions) (now : Int)
    (axiosResponse : AxiosResponse) : List LogCall × AxiosResponse :=
  let request := loggableRequestOf axiosResponse
    opts.whitelistRequestHeaders opts.blacklistRequestHeaders
  let response := loggableResponseOf now axiosResponse
    opts.whitelistResponseHeaders opts.blacklistResponseHeaders
  let requestLine := makeRequestLine (reqLikeOfLoggableRequest request)
  ([LogCall.info { request := some request, response := some response, error := none }
      (requestLine ++ " " ++ toString response.statusCode)],
    axiosResponse)

/-- The rejection interceptor `logError` from `src/es/index.js`: the sink
calls it performs, paired with the outcome the caller observes.  When the
error carries a `response`, the source passes `error.response` itself —
not a `{ axiosResponse: error.response, ... }` wrapper — as the options
object of `getLoggableRequestFromAxiosResponse` (and later of
`getLoggableResponseFromAxiosResponse`); destructuring then yields
`axiosResponse = undefined` and the normalizer throws a `TypeError`,
which escapes the handler before anything is logged and before the final
`Promise.reject(error)` is reached.  The two `if (error.response)` tests
of the source are merged into one `match`; the second normalizer call
still happens after the request line is built, as in the source. -/
def logError (_opts : LoggerOptions) (now : Int) (error : JsError) :
    List LogCall × Outcome :=
  match error.response with
  | some r =>
    match getLoggableRequestFromAxiosResponse (reqOptsOfRawResponse r) with
    | .error _ => ([], .thrown)
    | .ok request =>
      let requestLine := makeRequestLine (reqLikeOfLoggableRequest request)
      match getLoggableResponseFromAxiosResponse now (respOptsOfRawResponse r) with
      | .error _ => ([], .thrown)
      | .ok response =>
        ([LogCall.error
            { request := some request, response := some response, error := none }
            (requestLine ++ " " ++ toString response.statusCode)],
          .rejected error)
  | none =>
    match error.config with
    | some c =>
      let request := createClientRequestFromConfig c
      let requestLine := makeRequestLine (reqLikeOfLoggableRequest request)
      ([LogCall.error
          { request := some request, response := none, error := some error }
          (requestLine ++ " ERROR")],
        .rejected error)
    | none =>
      let requestLine := "Undefined client request"
      ([LogCall.error
          { request := none, response := none, error := some error }
          (requestLine ++ " ERROR")],
        .rejected error)

@[simp] theorem objKeys_nil : objKeys [] = [] := rfl

@[simp] theorem objKeys_cons (p : String × String) (t : HeaderMap) :
    objKeys (p :: t) = p.1 :: objKeys t := rfl

theorem jsGet_some_mem_objKeys {o : HeaderMap} {k v : String}
    (h : jsGet o k = some v) : k ∈ objKeys o := by
  induction o with
  | nil => simp [jsGet] at h
  | cons p t ih =>
    obtain ⟨k', v'⟩ := p
    by_cases hk : k' = k
    · subst hk; simp
    · simp only [jsGet, if_neg hk] at h
      exact List.mem_cons_of_mem _ (ih h)

theorem mem_objKeys_jsPick {o : HeaderMap} {ks : List String} {k : String}
    (h : k ∈ objKeys (jsPick o ks)) : k ∈ ks ∧ k ∈ objKeys o := by
  induction ks with
  | nil => simp [jsPick] at h
  | cons a as ih =>
    rw [jsPick] at h
    cases hg : jsGet o a with
    | none =>
      rw [hg] at h
      exact ⟨List.mem_cons_of_mem _ (ih h).1, (ih h).2⟩
    | some v =>
      rw [hg] at h
      rw [objKeys_cons, List.mem_cons] at h
      rcases h with rfl | h
      · exact ⟨List.mem_cons_self _ _, jsGet_some_mem_objKeys hg⟩
      · exact ⟨List.mem_cons_of_mem _ (ih h).1, (ih h).2⟩

theorem objKeys_jsOmit (o : HeaderMap) (ks : List String) :
    objKeys (jsOmit o ks) = (objKeys o).filter (fun k => !(ks.contains k)) := by
  induction o with
  | nil => rfl
  | cons p t ih =>
    simp only [jsOmit, List.elem_eq_mem] at ih ⊢
    by_cases hp : p.1 ∈ ks
    · simp [List.filter_cons, hp, ih]
    · simp [List.filter_cons, hp, ih]

theorem mem_objKeys_jsOmit {o : HeaderMap} {ks : List String} {k : String}
    (h : k ∈ objKeys (jsOmit o ks)) : k ∈ objKeys o ∧ k ∉ ks := by
  rw [objKeys_jsOmit, List.mem_filter] at h
  refine ⟨h.1, fun hmem => ?_⟩
  have h2 := h.2
  simp [List.elem_eq_mem, hmem] at h2

/-- Claim C3: for all header maps `H`, allow-lists `W` and deny-lists `B`,
the key set of `filterHeaders H W B` is contained in
`(W ∩ keys H) \ B` when the whitelist is given, equals `keys H \ B` when
the whitelist is omitted, and the result is `H` itself when both policies
are omitted; and blacklist removal is applied to the whitelisted map, i.e.
after whitelist selection. -/
theorem filterHeaders_spec (H : HeaderMap) (W B : List String) :
    (∀ k, k ∈ objKeys (filterHeaders H (some W) (some B)) →
        k ∈ W ∧ k ∈ objKeys H ∧ k ∉ B)
    ∧ objKeys (filterHeaders H none (some B)) =
        (objKeys H).filter (fun k => !(B.contains k))
    ∧ filterHeaders H none none = H
    ∧ filterHeaders H (some W) (some B) = jsOmit (jsPick H W) B := by
  refine ⟨fun k hk => ?_, ?_, ?_, rfl⟩
  · have h1 := mem_objKeys_jsOmit hk
    have h2 := mem_objKeys_jsPick h1.1
    exact ⟨h2.1, h2.2, h1.2⟩
  · exact objKeys_jsOmit H B
  · show jsOmit H [] = H
    exact List.filter_eq_self.mpr (fun p _ => rfl)

/-- Witness for `filterHeaders_spec` at a concrete map and concrete
policies, discharging the membership hypothesis by evaluation. -/
theorem filterHeaders_spec_witness :
    "a" ∈ ["a", "c"] ∧ "a" ∈ objKeys [("a", "1"), ("b", "2")] ∧ "a" ∉ ["b"] :=
  (filterHeaders_spec [("a", "1"), ("b", "2")] ["a", "c"] ["b"]).1 "a" (by decide)

theorem jsGet_objAssign_single (k v : String) (extra : HeaderMap) :
    jsGet (objAssign [(k, v)] extra) k = some ((jsGet extra k).getD v) := by
  simp [objAssign, jsGet]

theorem jsGet_filter_ne (k₀ k : String) (o : HeaderMap) (hne : k ≠ k₀) :
    jsGet (o.filter (fun p => !(([k₀] : List String).contains p.1))) k =
      jsGet o k := by
  induction o with
  | nil => rfl
  | cons q t ih =>
    obtain ⟨a, b⟩ := q
    by_cases ha : a = k₀
    · subst ha
      have : jsGet ((a, b) :: t) k = jsGet t k := by
        rw [jsGet, if_neg (fun h => hne h.symm)]
      rw [this, List.filter_cons]
      simpa using ih
    · have hkeep : (!(([k₀] : List String).contains a)) = true := by
        simp [List.elem_eq_mem, ha]
      simp only [List.filter_cons, hkeep, if_pos]
      rw [jsGet, jsGet]
      by_cases hak : a = k
      · simp [hak]
      · simp only [if_neg hak]
        exact ih

theorem jsGet_objAssign_single_ne (k v k' : String) (extra : HeaderMap)
    (hne : k' ≠ k) :
    jsGet (objAssign [(k, v)] extra) k' = jsGet extra k' := by
  simp only [objAssign, List.map_cons, List.map_nil, List.cons_append,
    List.nil_append]
  rw [jsGet, if_neg (fun h => hne h.symm)]
  exact jsGet_filter_ne k k' extra hne

/-- Claim C4 (counterexample): the URL-derived `host` does *not* take
precedence over a caller-set `host` header.  For a config whose URL names
`good.example` but whose headers carry `host: evil.example`,
`Object.assign({ host: parsedUrl.host }, headers)` lets the caller's
entry overwrite the synthesized one, so the resulting `host` header is
`evil.example`, not the host component parsed from the URL. -/
theorem createClientRequestFromConfig_host_counterexample :
    jsGet (createClientRequestFromConfig
        { url := "http://good.example/x", method := "get",
          headers := [("host", "evil.example")],
          timestamp := "2024-01-01T00:00:00.000Z" }).headers "host"
      = some "evil.example"
    ∧ (urlParse "http://good.example/x").host = "good.example"
    ∧ jsGet (createClientRequestFromConfig
        { url := "http://good.example/x", method := "get",
          headers := [("host", "evil.example")],
          timestamp := "2024-01-01T00:00:00.000Z" }).headers "host"
      ≠ some (urlParse "http://good.example/x").host := by decide

/-- Claim C4 (amended): for every config, the resulting headers map
contains a `host` entry; config-provided headers take precedence on every
conflicting key *including* `host`, so the entry equals the URL-derived
host exactly when the caller did not set a `host` header, and every other
key is looked up unchanged from the config headers. -/
theorem createClientRequestFromConfig_host_entry (config : Config) :
    jsGet (createClientRequestFromConfig config).headers "host" =
      some ((jsGet config.headers "host").getD (urlParse config.url).host)
    ∧ ∀ k, k ≠ "host" →
        jsGet (createClientRequestFromConfig config).headers k =
          jsGet config.headers k := by
  constructor
  · exact jsGet_objAssign_single "host" (urlParse config.url).host config.headers
  · exact fun k hk =>
      jsGet_objAssign_single_ne "host" (urlParse config.url).host k
        config.headers hk

/-- Witness for `createClientRequestFromConfig_host_entry` at a concrete
config, discharging the `k ≠ "host"` hypothesis by evaluation. -/
theorem createClientRequestFromConfig_host_entry_witness :
    jsGet (createClientRequestFromConfig
        { url := "http://example.com/x", method := "post",
          headers := [("auth", "t"), ("host", "h.example")],
          timestamp := "2024-01-01T00:00:00.000Z" }).headers "auth"
      = jsGet [("auth", "t"), ("host", "h.example")] "auth" :=
  (createClientRequestFromConfig_host_entry
    { url := "http://example.com/x", method := "post",
      headers := [("auth", "t"), ("host", "h.example")],
      timestamp := "2024-01-01T00:00:00.000Z" }).2 "auth" (by decide)

/-- Claim C5: on the config
`{url: "http://example.com/x", method: "post", headers: {auth: "t"},
timestamp: "2024-01-01T00:00:00.000Z"}` the normalizer returns exactly
`{timestamp: "2024-01-01T00:00:00.000Z", method: "POST", url: "/x",
headers: {host: "example.com", auth: "t"}}`: the method is uppercased,
the `url` field holds only the path component, and the issuance timestamp
is copied through unchanged. -/
theorem createClientRequestFromConfig_example :
    createClientRequestFromConfig
      { url := "http://example.com/x", method := "post",
        headers := [("auth", "t")], timestamp := "2024-01-01T00:00:00.000Z" } =
    { timestamp := "2024-01-01T00:00:00.000Z", method := "POST", url := "/x",
      headers := [("host", "example.com"), ("auth", "t")] } := by decide

/-- Claim C6: for every successful exchange, the success interceptor
returns the very same exchange value it received — the caller observes
exactly what the underlying client produced. -/
theorem logResponse_returns_original (opts : LoggerOptions) (now : Int)
    (axiosResponse : AxiosResponse) :
    (logResponse opts now axiosResponse).2 = axiosResponse := rfl

/-- Claim C7: an error carrying neither a `response` nor a `config`
produces exactly one `sink.error` call whose message is the literal
`"Undefined client request ERROR"`, and the original error is rejected. -/
theorem logError_indeterminate_message (opts : LoggerOptions) (now : Int)
    (message : String) :
    logError opts now { response := none, config := none, message := message } =
      ([LogCall.error
          { request := none, response := none,
            error := some { response := none, config := none, message := message } }
          "Undefined client request ERROR"],
        Outcome.rejected { response := none, config := none, message := message }) :=
  rfl

/-- Claim C8: the normalized response's `responseTime` is exactly the
completion instant captured at normalization minus the epoch value of the
issuance timestamp stamped on the exchange's config, in integer
milliseconds; when the stamped timestamp lies after the completion
instant the difference is negative and is preserved as-is, not clamped
to zero. -/
theorem loggableResponseOf_responseTime (now : Int)
    (axiosResponse : AxiosResponse) (wl bl : Option (List String)) :
    (loggableResponseOf now axiosResponse wl bl).responseTime =
      now - dateGetTime axiosResponse.config.timestamp
    ∧ (now < dateGetTime axiosResponse.config.timestamp →
        (loggableResponseOf now axiosResponse wl bl).responseTime < 0) := by
  refine ⟨rfl, fun h => ?_⟩
  show now - dateGetTime axiosResponse.config.timestamp < 0
  omega

/-- Witness for `loggableResponseOf_responseTime`: a completion instant
five seconds before the stamped `2024-01-01T00:00:00.000Z` yields a
negative `responseTime`, discharging the hypothesis by evaluating the
timestamp conversion. -/
theorem loggableResponseOf_responseTime_witness :
    (loggableResponseOf 1704067195000
      { config := { url := "http://example.com/x", method := "get",
                    headers := [], timestamp := "2024-01-01T00:00:00.000Z" },
        request := { method := "GET", path := "/x", headers := [] },
        status := 200, headers := [] } none none).responseTime < 0 :=
  (loggableResponseOf_responseTime 1704067195000
    { config := { url := "http://example.com/x", method := "get",
                  headers := [], timestamp := "2024-01-01T00:00:00.000Z" },
      request := { method := "GET", path := "/x", headers := [] },
      status := 200, headers := [] } none none).2 (by decide)

/-- Claim C1 (code defect): the error-propagation invariant fails when the
error carries an upstream response.  `logError` passes `error.response`
itself as the options object of `getLoggableRequestFromAxiosResponse`, so
the destructured `axiosResponse` is `undefined`, reading `.config` throws
a `TypeError`, and the caller observes that thrown `TypeError` — not a
rejection carrying the original error; nothing is logged either.  This
evaluation exhibits the branch: no sink call, outcome `thrown` rather
than `rejected` with the original error. -/
theorem logError_with_response_throws :
    logError
      { whitelistRequestHeaders := none, blacklistRequestHeaders := none,
        whitelistResponseHeaders := none, blacklistResponseHeaders := none }
      1704067200500
      { response := some
          { config := { url := "http://example.com/x", method := "get",
                        headers := [], timestamp := "2024-01-01T00:00:00.000Z" },
            request := { method := "GET", path := "/x", headers := [] },
            status := 500, headers := [("content-type", "text/plain")] },
        config := some { url := "http://example.com/x", method := "get",
                         headers := [], timestamp := "2024-01-01T00:00:00.000Z" },
        message := "Request failed with status code 500" } =
      ([], Outcome.thrown) := rfl

/-- Claim C2 (code defect): when the error carries an upstream response,
no `sink.error` call with the normalized request/response payload is ever
emitted — the raw response is passed as the options object of the
normalizers, the `TypeError` on the `undefined` `axiosResponse` escapes
first, and the emitted call list is empty. -/
theorem logError_with_response_emits_nothing :
    (logError
      { whitelistRequestHeaders := some ["accept"],
        blacklistRequestHeaders := some ["authorization"],
        whitelistResponseHeaders := some ["content-type"],
        blacklistResponseHeaders := none }
      1718454896789
      { response := some
          { config := { url := "https://api.example.net/v1/items?page=2",
                        method := "post",
                        headers := [("accept", "application/json")],
                        timestamp := "2024-06-15T12:34:56.000Z" },
            request := { method := "POST", path := "/v1/items?page=2",
                         headers := [("host", "api.example.net")] },
            status := 404, headers := [("content-type", "application/json")] },
        config := none,
        message := "Request failed with status code 404" }).1 = [] := rfl

/-- Claim C9 (code defect): the success interceptor emits exactly one
info-level call, but the failure branch for an error that carries an
upstream response emits no error-level call at all (the `TypeError`
escapes before `logger.error` is reached), so "all failure branches emit
via the error-level method" fails on that branch.  No invocation ever
calls both methods. -/
theorem sink_severity_eval :
    (∃ p m, (logResponse
        { whitelistRequestHeaders := none, blacklistRequestHeaders := none,
          whitelistResponseHeaders := none, blacklistResponseHeaders := none }
        1704067205000
        { config := { url := "http://example.com/a", method := "get",
                      headers := [], timestamp := "2024-01-01T00:00:00.000Z" },
          request := { method := "GET", path := "/a",
                       headers := [("host", "example.com")] },
          status := 200, headers := [] }).1 = [LogCall.info p m])
    ∧ (logError
        { whitelistRequestHeaders := none, blacklistRequestHeaders := none,
          whitelistResponseHeaders := none, blacklistResponseHeaders := none }
        1704067205000
        { response := some
            { config := { url := "http://example.com/a", method := "get",
                          headers := [], timestamp := "2024-01-01T00:00:00.000Z" },
              request := { method := "GET", path := "/a",
                           headers := [("host", "example.com")] },
              status := 503, headers := [] },
          config := none,
          message := "Service unavailable" }).1 = [] :=
  ⟨⟨_, _, rfl⟩, rfl⟩

/-- The request line as claim C10 words it: the header map is
`request.headers`, falling back to `request._headers` and then to an
empty map; `host` is `headers.host` falling back to the empty string; the
path part is `request.url` falling back to `request.path` (the fallbacks
being the source's JS `||`, under which an empty string also falls
through and a fully absent value prints as `undefined`); the line is
`method ++ " " ++ host ++ url`, with no trailing space. -/
def makeRequestLineClaim (request : ReqLike) : String :=
  let headers := request.headers.getD (request.uheaders.getD [])
  let host := (jsGet headers "host").getD ""
  let url := jsStr (jsOrVal request.url request.path)
  request.method ++ " " ++ host ++ url

/-- Claim C10: for every request object, `makeRequestLine` returns exactly
the string `method ++ " " ++ host ++ url` described by the claim, where
the header map is `request.headers` falling back to `request._headers`
then to the empty map, `host` is `headers.host` falling back to `""`, and
the path part is `request.url` falling back to `request.path`. -/
theorem makeRequestLine_eq_claim (request : ReqLike) :
    makeRequestLine request = makeRequestLineClaim request := by
  obtain ⟨m, h, uh, u, p⟩ := request
  cases h <;> cases uh <;> rfl
